import Mathlib

set_option maxHeartbeats 1000000

/-
Shallow embedding of src/app.py (Sentiment Analysis Studio).

Conventions:
- Python strings are modelled as `List Char` where character-level slicing
  matters (`text[:512]` becomes `List.take 512`), and as `String` for label
  tags and column names.
- External collaborators (the langdetect detector, the two transformer
  pipelines, the YouTube API) are modelled as function parameters returning
  `Except E α`: `Except.error` models a raised exception, `Except.ok` a
  normal return.
- A pipeline call `model(text)[0]["label"]` is modelled as a function from
  the input characters to the produced label string.
-/

/-- Language router from app.py lines 106-110: call the external detector and,
on any raised exception, fall back to the code "en". The langdetect
collaborator is the parameter `detect`. -/
def detect_language {E : Type} (detect : List Char → Except E String)
    (text : List Char) : String :=
  match detect text with
  | Except.ok lang => lang
  | Except.error _ => "en"

/-- Label mapping step of `predict_sentiment` (app.py line 115):
`"Negative" if label in ["LABEL_0", "NEGATIVE"] else "Positive"`. -/
def normalize_label (label : String) : String :=
  if label ∈ (["LABEL_0", "NEGATIVE"] : List String) then "Negative" else "Positive"

/-- Sentiment predictor from app.py lines 112-115. The two pipelines are the
parameters `sentiment_en` and `sentiment_multi`; a pipeline may raise
(`Except.error`), and that error propagates out of `predict_sentiment`
because the source body has no try/except. The chosen model is applied to
`text[:512]`, that is `text.take 512`. -/
def predict_sentiment {E : Type}
    (detect sentiment_en sentiment_multi : List Char → Except E String)
    (text : List Char) : Except E String :=
  ((if detect_language detect text = "en" then sentiment_en else sentiment_multi)
      (text.take 512)).map normalize_label

/-- Distinct values occurring in a list, in the role the index of
`pandas.Series.value_counts` plays (its frequency ordering is irrelevant
to any claim here). -/
def uniqueVals : List String → List String
  | [] => []
  | a :: as => if a ∈ uniqueVals as then uniqueVals as else a :: uniqueVals as

/-- Model of `pd.Series(l).value_counts()`: each occurring value paired with
its number of occurrences. -/
def value_counts (l : List String) : List (String × Nat) :=
  (uniqueVals l).map (fun v => (v, l.count v))

/-- Model of `.reindex(index, fill_value=0)`: keep exactly the requested index,
taking the counted value when present and 0 otherwise. -/
def reindex (counts : List (String × Nat)) (index : List String) :
    List (String × Nat) :=
  index.map (fun c => (c, ((counts.find? (fun p => p.1 == c)).map Prod.snd).getD 0))

/-- Aggregation step shared by `show_sentiment_pie` (app.py line 228) and
`show_sentiment_pie_and_bar` (line 199):
`pd.Series(sentiments).value_counts().reindex(["Negative", "Positive"], fill_value=0)`. -/
def sentiment_counts (sentiments : List String) : List (String × Nat) :=
  reindex (value_counts sentiments) ["Negative", "Positive"]

/-- Keyword table `ASPECTS` from app.py lines 117-122, exactly as in the source. -/
def ASPECTS : List (String × List String) :=
  [("Price", ["price", "cost", "expensive", "cheap"]),
   ("Quality", ["quality", "pure", "organic"]),
   ("Packaging", ["packaging", "bottle", "box"]),
   ("Delivery", ["delivery", "shipping"])]

/-- Boolean test that `k` begins the list `t` (componentwise equality). -/
def startsWithL : List Char → List Char → Bool
  | [], _ => true
  | _ :: _, [] => false
  | a :: as, b :: bs => a == b && startsWithL as bs

/-- Boolean test modelling the Python substring operator `k in tl`. -/
def occursIn (k : List Char) : List Char → Bool
  | [] => startsWithL k []
  | c :: rest => startsWithL k (c :: rest) || occursIn k rest

/-- Inner loop of `aspect_based_sentiment` (app.py lines 124-131) for one text:
lowercase it once, and for every aspect one of whose keywords occurs in the
lowered text append one (aspect, sentiment) row. `classify` stands for the
sentiment that `predict_sentiment` returns for the text. -/
def aspect_rows_for (classify : List Char → String) (t : List Char) :
    List (String × String) :=
  let tl := t.map Char.toLower
  (ASPECTS.filter (fun p => p.2.any (fun k => occursIn k.data tl))).map
    (fun p => (p.1, classify t))

/-- Aspect tagger from app.py lines 124-131 over a list of texts. -/
def aspect_based_sentiment (classify : List Char → String)
    (texts : List (List Char)) : List (String × String) :=
  texts.flatMap (aspect_rows_for classify)

/-- Comment fetch from app.py lines 142-149: one API call per video (the
collaborator `api` returns the comment texts of `res["items"]`, or raises),
then the first `limit` items are kept. The source has no try/except here. -/
def fetch_comments {E : Type} (api : String → Except E (List (List Char)))
    (video_id : String) (limit : Nat) : Except E (List (List Char)) :=
  (api video_id).map (fun items => items.take limit)

/-- Comment collection loop of the Product / Topic branch (app.py lines
263-266): `for v in vids: comments.extend(fetch_comments(v))`, with the
default `limit = 150` of `fetch_comments`. No API error is caught anywhere in
this loop, so a raised error propagates through the fold. -/
def collect_comments {E : Type} (api : String → Except E (List (List Char)))
    (vids : List String) : Except E (List (List Char)) :=
  vids.foldlM (fun comments v => (fetch_comments api v 150).map (fun cs => comments ++ cs)) []

/-- Text-column resolution of the CSV branch (app.py lines 327-331): the frame
is analysed with column "text" exactly when some column is literally named
"text"; otherwise `st.error` is shown (modelled `none`) and nothing is
analysed. -/
def csv_text_column (columns : List String) : Option String :=
  if "text" ∈ columns then some "text" else none

/-- Every label the mapping step can produce is one of the two strings
"Negative" and "Positive". -/
theorem normalize_label_cases (l : String) :
    normalize_label l = "Negative" ∨ normalize_label l = "Positive" := by
  unfold normalize_label
  split <;> simp

/-- Every successful return value of `predict_sentiment` is "Negative" or
"Positive", whatever the collaborators do. -/
theorem predict_ok_cases {E : Type}
    (detect sentiment_en sentiment_multi : List Char → Except E String)
    (text : List Char) (s : String)
    (h : predict_sentiment detect sentiment_en sentiment_multi text = Except.ok s) :
    s = "Negative" ∨ s = "Positive" := by
  unfold predict_sentiment at h
  cases hm : (if detect_language detect text = "en" then sentiment_en else sentiment_multi)
      (text.take 512) with
  | ok label =>
    rw [hm] at h
    simp only [Except.map] at h
    cases h
    exact normalize_label_cases label
  | error err =>
    rw [hm] at h
    simp [Except.map] at h

/-- Membership in `uniqueVals` is membership in the underlying list. -/
theorem mem_uniqueVals (l : List String) : ∀ c, c ∈ uniqueVals l ↔ c ∈ l := by
  induction l with
  | nil => intro c; simp [uniqueVals]
  | cons a as ih =>
    intro c
    unfold uniqueVals
    by_cases h : a ∈ uniqueVals as
    · rw [if_pos h, ih c, List.mem_cons]
      constructor
      · exact Or.inr
      · rintro (rfl | hc)
        · exact (ih c).mp h
        · exact hc
    · rw [if_neg h]
      simp [List.mem_cons, ih c]

/-- Finding a key inside a key-value map built from a key list. -/
theorem find?_map_pair (xs : List String) (f : String → Nat) (c : String) :
    ((xs.map (fun v => (v, f v))).find? (fun p => p.1 == c))
      = (xs.find? (fun v => v == c)).map (fun v => (v, f v)) := by
  induction xs with
  | nil => rfl
  | cons a as ih =>
    cases h : (a == c) <;> simp [List.find?_cons, h, ih]

/-- Searching a list for an element equal to `c` yields `c` exactly when `c`
is a member. -/
theorem find?_self (xs : List String) (c : String) :
    xs.find? (fun v => v == c) = if c ∈ xs then some c else none := by
  induction xs with
  | nil => rfl
  | cons a as ih =>
    cases h : (a == c) with
    | true =>
      have ha : a = c := eq_of_beq h
      subst ha
      simp [List.find?_cons, h]
    | false =>
      have hne : ¬ c = a := fun hh => by simp [hh] at h
      rw [List.find?_cons, h, ih]
      simp [List.mem_cons, hne]

/-- The value looked up in `value_counts` under key `c`, with default 0, is
the number of occurrences of `c`. -/
theorem lookup_value_counts (l : List String) (c : String) :
    (((value_counts l).find? (fun p => p.1 == c)).map Prod.snd).getD 0 = l.count c := by
  unfold value_counts
  rw [find?_map_pair, find?_self]
  by_cases h : c ∈ uniqueVals l
  · simp [h]
  · have hcl : c ∉ l := fun hc => h ((mem_uniqueVals l c).mpr hc)
    simp [h, List.count_eq_zero.mpr hcl]

/-- Closed form of the aggregation: one entry per configured category, whose
value is the occurrence count of that category. -/
theorem sentiment_counts_eq (l : List String) :
    sentiment_counts l
      = [("Negative", l.count "Negative"), ("Positive", l.count "Positive")] := by
  unfold sentiment_counts reindex
  simp [lookup_value_counts]

/-- Counting the two canonical categories exhausts a list drawn from them. -/
theorem count_two (l : List String)
    (h : ∀ x ∈ l, x = "Negative" ∨ x = "Positive") :
    l.count "Negative" + l.count "Positive" = l.length := by
  induction l with
  | nil => rfl
  | cons a as ih =>
    have ha := h a (List.mem_cons_self a as)
    have ih' := ih (fun x hx => h x (List.mem_cons_of_mem a hx))
    rcases ha with rfl | rfl <;> simp [List.count_cons] <;> omega

/-- Characterisation of `startsWithL`: the pattern followed by some tail gives
the scanned list. -/
theorem startsWithL_iff (k : List Char) : ∀ t, startsWithL k t = true ↔ ∃ post, k ++ post = t := by
  induction k with
  | nil =>
    intro t
    simp [startsWithL]
  | cons a as ih =>
    intro t
    cases t with
    | nil =>
      simp [startsWithL]
    | cons b bs =>
      rw [startsWithL]
      constructor
      · intro h
        rw [Bool.and_eq_true] at h
        have hab : a = b := eq_of_beq h.1
        obtain ⟨post, hpost⟩ := (ih bs).mp h.2
        exact ⟨post, by rw [List.cons_append, hab, hpost]⟩
      · rintro ⟨post, hpost⟩
        rw [List.cons_append] at hpost
        injection hpost with h1 h2
        rw [Bool.and_eq_true]
        exact ⟨by rw [h1]; exact beq_self_eq_true b, (ih bs).mpr ⟨post, h2⟩⟩

/-- Characterisation of `occursIn`: the Python substring test `k in t` holds
exactly when `t` splits around an occurrence of `k`. -/
theorem occursIn_iff (k : List Char) : ∀ t, occursIn k t = true ↔ ∃ pre post, pre ++ (k ++ post) = t := by
  intro t
  induction t with
  | nil =>
    rw [occursIn, startsWithL_iff]
    constructor
    · rintro ⟨post, hpost⟩
      exact ⟨[], post, hpost⟩
    · rintro ⟨pre, post, h⟩
      rcases List.append_eq_nil.mp h with ⟨-, h2⟩
      exact ⟨post, h2⟩
  | cons c rest ih =>
    rw [occursIn, Bool.or_eq_true, startsWithL_iff, ih]
    constructor
    · rintro (⟨post, hpost⟩ | ⟨pre, post, h⟩)
      · exact ⟨[], post, hpost⟩
      · exact ⟨c :: pre, post, by rw [List.cons_append, h]⟩
    · rintro ⟨pre, post, h⟩
      cases pre with
      | nil => exact Or.inl ⟨post, h⟩
      | cons d pre =>
        rw [List.cons_append] at h
        injection h with h1 h2
        exact Or.inr ⟨pre, post, h2⟩

/-- A raised API error inside the comment-collection fold makes the whole fold
error out, from any accumulator. -/
theorem foldl_fetch_error {E : Type} (api : String → Except E (List (List Char)))
    (vids : List String) (v : String) (e : E)
    (hv : v ∈ vids) (he : api v = Except.error e) :
    ∀ init, ∃ e', vids.foldlM
        (fun comments w => (fetch_comments api w 150).map (fun cs => comments ++ cs)) init
      = Except.error e' := by
  induction vids with
  | nil => cases hv
  | cons w ws ih =>
    intro init
    rw [List.foldlM_cons]
    rcases List.mem_cons.mp hv with rfl | hv'
    · have h1 : (fetch_comments api v 150).map (fun cs => init ++ cs) = Except.error e := by
        unfold fetch_comments
        rw [he]
        rfl
      exact ⟨e, by rw [h1]; rfl⟩
    · cases hval : (fetch_comments api w 150).map (fun cs => init ++ cs) with
      | error err => exact ⟨err, rfl⟩
      | ok s =>
        obtain ⟨e', h'⟩ := ih hv' s
        exact ⟨e', h'⟩

/-- C1 counterexample: the mapping step sends the raw tag "LABEL_1" to
"Positive" rather than the claimed "Neutral", and "1 star" to "Positive"
rather than the claimed "Negative". -/
theorem normalize_label_cex :
    normalize_label "LABEL_1" = "Positive" ∧ normalize_label "LABEL_1" ≠ "Neutral" ∧
    normalize_label "1 star" = "Positive" ∧ normalize_label "1 star" ≠ "Negative" := by
  refine ⟨rfl, ?_, rfl, ?_⟩ <;> decide

/-- C1 (amended): the mapping step of `predict_sentiment` sends "LABEL_0" and
"NEGATIVE" to "Negative", and every other raw tag — "LABEL_1", "NEUTRAL",
star ratings, "LABEL_2", "POSITIVE" and all unrecognized tags alike — to
"Positive"; "Neutral" is never produced. -/
theorem normalize_label_mapping (l : String)
    (h0 : l ≠ "LABEL_0") (h1 : l ≠ "NEGATIVE") :
    normalize_label "LABEL_0" = "Negative" ∧ normalize_label "NEGATIVE" = "Negative" ∧
    normalize_label l = "Positive" := by
  refine ⟨rfl, rfl, ?_⟩
  have hmem : l ∉ (["LABEL_0", "NEGATIVE"] : List String) := by
    simp [h0, h1]
  simp [normalize_label, hmem]

/-- Witness for C1 at the raw tag "3 stars". -/
theorem normalize_label_mapping_witness :
    normalize_label "3 stars" = "Positive" :=
  (normalize_label_mapping "3 stars" (by decide) (by decide)).2.2

/-- C2 counterexample: with a detector answering "en" and an English pipeline
that raises, `predict_sentiment` on the text "hi" evaluates to the raised
error itself, not to any default sentiment value. -/
theorem predict_sentiment_error_cex :
    predict_sentiment (fun _ => Except.ok "en")
      (fun _ => Except.error ()) (fun _ => Except.error ()) "hi".data
      = Except.error () := rfl

/-- C2 (amended): when the classifier selected for a text raises an exception,
`predict_sentiment` propagates exactly that exception to its caller; its body
contains no exception handler. -/
theorem predict_sentiment_propagates_error {E : Type}
    (detect sentiment_en sentiment_multi : List Char → Except E String)
    (text : List Char) (e : E)
    (h : (if detect_language detect text = "en" then sentiment_en else sentiment_multi)
          (text.take 512) = Except.error e) :
    predict_sentiment detect sentiment_en sentiment_multi text = Except.error e := by
  unfold predict_sentiment
  rw [h]
  rfl

/-- Witness for C2: a non-English text whose multilingual pipeline raises. -/
theorem predict_sentiment_propagates_error_witness :
    predict_sentiment (fun _ => Except.ok "fr")
      (fun _ => Except.ok "POSITIVE") (fun _ => Except.error ()) "bonjour".data
      = Except.error () :=
  predict_sentiment_propagates_error _ _ _ _ () rfl

/-- C3: the selected classifier is consulted only at `text.take 512` — two
pipeline pairs agreeing there give identical predictions — and `text.take 512`
is exactly the first 512 characters: for longer texts it has length 512 and is
completed to `text` by the remaining characters, and texts of length at most
512 pass unchanged. -/
theorem predict_sentiment_truncates {E : Type}
    (detect en en' multi multi' : List Char → Except E String) (text : List Char)
    (hen : en (text.take 512) = en' (text.take 512))
    (hmulti : multi (text.take 512) = multi' (text.take 512)) :
    predict_sentiment detect en multi text = predict_sentiment detect en' multi' text ∧
    (512 < text.length → (text.take 512).length = 512 ∧ text.take 512 ++ text.drop 512 = text) ∧
    (text.length ≤ 512 → text.take 512 = text) := by
  refine ⟨?_, fun h => ⟨?_, List.take_append_drop 512 text⟩,
    fun h => List.take_of_length_le h⟩
  · unfold predict_sentiment
    by_cases hd : detect_language detect text = "en" <;> simp [hd, hen, hmulti]
  · rw [List.length_take]
    omega

/-- Witness for C3 at a 600-character text. -/
theorem predict_sentiment_truncates_witness :
    512 < (List.replicate 600 'a').length ∧
    ((List.replicate 600 'a').take 512).length = 512 := by
  have h := predict_sentiment_truncates (E := Unit) (fun _ => Except.ok "en")
    (fun _ => Except.ok "X") (fun _ => Except.ok "X") (fun _ => Except.ok "X")
    (fun _ => Except.ok "X") (List.replicate 600 'a') rfl rfl
  have hlen : 512 < (List.replicate 600 'a').length := by
    rw [List.length_replicate]
    omega
  exact ⟨hlen, (h.2.1 hlen).1⟩

/-- C4: every value `predict_sentiment` returns is "Negative" or "Positive" —
whatever the detector, the pipelines and the raw label are, no third value such
as "Neutral" can reach the downstream aggregations. -/
theorem predict_sentiment_binary {E : Type}
    (detect sentiment_en sentiment_multi : List Char → Except E String)
    (text : List Char) (s : String)
    (h : predict_sentiment detect sentiment_en sentiment_multi text = Except.ok s) :
    s = "Negative" ∨ s = "Positive" :=
  predict_ok_cases detect sentiment_en sentiment_multi text s h

/-- Witness for C4 on a concrete run returning "Negative". -/
theorem predict_sentiment_binary_witness :
    "Negative" = "Negative" ∨ "Negative" = "Positive" :=
  predict_sentiment_binary (E := Unit) (fun _ => Except.ok "en")
    (fun _ => Except.ok "LABEL_0") (fun _ => Except.ok "LABEL_0") "bad".data "Negative" rfl

/-- C5: on any list of sentiments each produced by a successful run of
`predict_sentiment`, the value_counts-then-reindex aggregation yields
non-negative counts whose sum is the length of the list. -/
theorem sentiment_counts_sum (l : List String)
    (h : ∀ x ∈ l, ∃ (detect en multi : List Char → Except Unit String) (t : List Char),
        predict_sentiment detect en multi t = Except.ok x) :
    (∀ p ∈ sentiment_counts l, 0 ≤ p.2) ∧
    ((sentiment_counts l).map Prod.snd).sum = l.length := by
  refine ⟨fun p _ => Nat.zero_le _, ?_⟩
  have hx : ∀ x ∈ l, x = "Negative" ∨ x = "Positive" := by
    intro x hxl
    obtain ⟨d, en, multi, t, hp⟩ := h x hxl
    exact predict_ok_cases d en multi t x hp
  rw [sentiment_counts_eq]
  simpa using count_two l hx

/-- Witness for C5 on the two-element run ["Negative", "Positive"]. -/
theorem sentiment_counts_sum_witness :
    ((sentiment_counts ["Negative", "Positive"]).map Prod.snd).sum = 2 := by
  have h := sentiment_counts_sum ["Negative", "Positive"] ?_
  · exact h.2
  · intro x hx
    rcases List.mem_cons.mp hx with rfl | hx'
    · exact ⟨fun _ => Except.ok "en", fun _ => Except.ok "LABEL_0",
        fun _ => Except.ok "LABEL_0", [], rfl⟩
    · rcases List.mem_singleton.mp hx' with rfl
      exact ⟨fun _ => Except.ok "en", fun _ => Except.ok "POSITIVE",
        fun _ => Except.ok "POSITIVE", [], rfl⟩

/-- C6: aggregating the empty sequence yields both configured categories with
count 0, and any category of the configured index that does not occur in the
input still appears in the aggregation with count 0. -/
theorem sentiment_counts_zero_fill (l : List String) (c : String)
    (hc : c ∈ (["Negative", "Positive"] : List String)) (hl : c ∉ l) :
    sentiment_counts [] = [("Negative", 0), ("Positive", 0)] ∧
    (c, 0) ∈ sentiment_counts l := by
  refine ⟨rfl, ?_⟩
  have h0 : l.count c = 0 := List.count_eq_zero.mpr hl
  rcases List.mem_cons.mp hc with rfl | hc'
  · simp [sentiment_counts_eq, h0]
  · rcases List.mem_singleton.mp hc' with rfl
    simp [sentiment_counts_eq, h0]

/-- Witness for C6: "Negative" absent from the input still appears with 0. -/
theorem sentiment_counts_zero_fill_witness :
    ("Negative", 0) ∈ sentiment_counts ["Positive"] :=
  (sentiment_counts_zero_fill ["Positive"] "Negative" (by decide) (by decide)).2

/-- C7 counterexample: the spec keyword "performance" occurs in the text
"performance", yet the aspect tagger emits no row for it — the source Quality
keyword list is only {quality, pure, organic}. -/
theorem aspect_quality_cex :
    occursIn "performance".data ("performance".data.map Char.toLower) = true ∧
    ("Quality", ["quality", "pure", "organic"]) ∈ ASPECTS ∧
    aspect_based_sentiment (fun _ => "Positive") ["performance".data] = [] := by
  refine ⟨by decide, by decide, rfl⟩

/-- C7 (amended): for every text the aspect tagger emits rows for exactly the
aspects of the source table — with Quality keywords {quality, pure, organic} —
one of whose keywords occurs as a substring of the lowercased text; a text
containing "expensive" yields a Price row and a text with no configured
keyword yields no rows. -/
theorem aspect_tagger_matches (classify : List Char → String) (t : List Char) :
    (∀ a, a ∈ (aspect_based_sentiment classify [t]).map Prod.fst ↔
        ∃ keys, (a, keys) ∈ ASPECTS ∧ ∃ k ∈ keys, ∃ pre post,
          pre ++ (k.data ++ post) = t.map Char.toLower) ∧
    "Price" ∈ (aspect_based_sentiment classify ["this is expensive".data]).map Prod.fst ∧
    aspect_based_sentiment classify ["hello world".data] = [] := by
  refine ⟨?_, List.Mem.head _, rfl⟩
  intro a
  constructor
  · intro ha
    simp only [aspect_based_sentiment, List.flatMap_cons, List.flatMap_nil,
      List.append_nil, aspect_rows_for, List.map_map, List.mem_map,
      Function.comp, List.mem_filter] at ha
    obtain ⟨p, ⟨hp, hpred⟩, ha1⟩ := ha
    rw [List.any_eq_true] at hpred
    obtain ⟨k, hk, hocc⟩ := hpred
    obtain ⟨pre, post, heq⟩ := (occursIn_iff k.data (t.map Char.toLower)).mp hocc
    refine ⟨p.2, ?_, k, hk, pre, post, heq⟩
    rw [← ha1]
    exact hp
  · rintro ⟨keys, hmem, k, hk, pre, post, heq⟩
    simp only [aspect_based_sentiment, List.flatMap_cons, List.flatMap_nil,
      List.append_nil, aspect_rows_for, List.map_map, List.mem_map,
      Function.comp, List.mem_filter]
    refine ⟨(a, keys), ⟨hmem, ?_⟩, rfl⟩
    rw [List.any_eq_true]
    exact ⟨k, hk, (occursIn_iff k.data (t.map Char.toLower)).mpr ⟨pre, post, heq⟩⟩

/-- C8 counterexample: a dataset whose only column is "Tweet" — or even
"tweet" — is rejected by the CSV branch, which recognizes no synonym and no
case-insensitive match. -/
theorem csv_text_column_cex :
    csv_text_column ["Tweet"] = none ∧ csv_text_column ["tweet"] = none :=
  ⟨rfl, rfl⟩

/-- C8 (amended): the CSV branch analyses a dataset exactly when some column
is literally named "text" (case-sensitively), and in every other case — any
other name, any casing, any fallback candidate — it shows a user-visible
error and analyses nothing. -/
theorem csv_text_column_exact (columns : List String) :
    (csv_text_column columns = some "text" ↔ "text" ∈ columns) ∧
    (csv_text_column columns = none ↔ "text" ∉ columns) := by
  unfold csv_text_column
  by_cases h : "text" ∈ columns <;> simp [h]

/-- C9 counterexample: with an API that raises on video "a" and returns one
comment for any other video, collecting over ["a", "b"] yields the raised
error — video "b"'s comment is lost and the run aborts — although collecting
over ["b"] alone succeeds. -/
theorem collect_comments_cex :
    collect_comments (fun v => if v = "a" then Except.error () else Except.ok [['x']])
      ["a", "b"] = Except.error () ∧
    collect_comments (fun v => if v = "a" then Except.error () else Except.ok [['x']])
      ["b"] = Except.ok [['x']] :=
  ⟨rfl, rfl⟩

/-- C9 (amended): if the API call for any video of the pass raises, the error
propagates out of the comment-collection loop and the whole collection aborts
with an error instead of producing any comment list. -/
theorem collect_comments_error_aborts {E : Type}
    (api : String → Except E (List (List Char))) (vids : List String)
    (v : String) (e : E) (hv : v ∈ vids) (he : api v = Except.error e) :
    ∃ e', collect_comments api vids = Except.error e' := by
  unfold collect_comments
  exact foldl_fetch_error api vids v e hv he []

/-- Witness for C9: the API raising 7 on video "a" aborts the pass over
["z", "a"]. -/
theorem collect_comments_error_aborts_witness :
    ∃ e', collect_comments
        (fun v => if v = "a" then Except.error 7 else Except.ok []) ["z", "a"]
      = Except.error e' :=
  collect_comments_error_aborts _ ["z", "a"] "a" 7 (by decide) rfl

/-- C10: when the detector raises, `detect_language` returns "en" and
`predict_sentiment` therefore runs the English pipeline on the truncated
text; the failure never propagates. -/
theorem detect_language_defaults {E : Type}
    (detect sentiment_en sentiment_multi : List Char → Except E String)
    (text : List Char) (e : E) (h : detect text = Except.error e) :
    detect_language detect text = "en" ∧
    predict_sentiment detect sentiment_en sentiment_multi text
      = (sentiment_en (text.take 512)).map normalize_label := by
  have h1 : detect_language detect text = "en" := by
    unfold detect_language
    rw [h]
  refine ⟨h1, ?_⟩
  unfold predict_sentiment
  rw [h1]
  simp

/-- Witness for C10: a detector that always raises still routes to "en". -/
theorem detect_language_defaults_witness :
    detect_language (fun _ => (Except.error () : Except Unit String)) "xyz".data = "en" :=
  (detect_language_defaults (fun _ => Except.error ()) (fun _ => Except.ok "POSITIVE")
    (fun _ => Except.ok "POSITIVE") "xyz".data () rfl).1
